import Mathlib

/-!
A shallow embedding of the resilient API-client core of the repository:
the `Tally`, `Hotmart` and `TMB` HTTP clients (token management, rate
limiting, retry with backoff, transparent pagination) from
`src/tally_utils.py`, `src/hotmart_utils.py`, `src/tmb_utils.py`, and the
SQL batch-update executor from `src/sql_utils.py`.

Modelling conventions:
* Python methods become pure Lean functions; the mutable client attributes
  become explicit state records threaded through the functions.
* `time.time()` / `datetime.now()` become explicit time parameters
  (rationals for the float clock of the sliding-window limiter, integers
  for token expiry).
* The network becomes an oracle: a function assigning to every attempt
  index the outcome of that attempt (an HTTP response with a status and
  rate-limit headers, a timeout, or a connection-level failure), and page
  scripts for the paginators.
* Raised exceptions become `Except` error values; `time.sleep` calls are
  recorded in trace fields instead of blocking.
-/

/-- Python truthiness test `not x` for an optional string: `None` and the
empty string are falsy. -/
def optFalsy : Option String → Bool
  | none => true
  | some s => s.isEmpty

/-- A nonempty all-digit character list. -/
def digitChars (cs : List Char) : Bool := !cs.isEmpty && cs.all Char.isDigit

/-- Numeric value of a digit character list. -/
def digitsToNat (cs : List Char) : Nat :=
  cs.foldl (fun n c => n * 10 + (c.toNat - 48)) 0

/-- Model of Python `int(s)` / `float(s)` applied to a header string:
an optional sign followed by digits; `none` exactly when the parse raises
(`ValueError`). Header values that matter to the claims are integers, so
the float header `X-RateLimit-Reset` is modelled at integer precision. -/
def pyParseInt (s : String) : Option Int :=
  match s.data with
  | '-' :: rest => if digitChars rest then some (-(digitsToNat rest : Int)) else none
  | '+' :: rest => if digitChars rest then some ((digitsToNat rest : Int)) else none
  | cs => if digitChars cs then some ((digitsToNat cs : Int)) else none

/-- Python `s.isdigit()` for the strings that reach it in
`Hotmart._update_rate_limit`. -/
def isDigits (s : String) : Bool := digitChars s.data

namespace Tally

/-- Result of one `Tally._check_rate_limit` call: the sleep performed, if
any, and the new `request_times` list. -/
structure RateCheck where
  waited : Option ℚ
  newTimes : List ℚ
deriving Repr, DecidableEq

/-- `Tally._check_rate_limit` (tally_utils.py lines 87-113): prune
timestamps not newer than `now - 60`, and if 100 (`RATE_LIMIT`) or more
remain, sleep `60 - (now - oldest) + 1` and clear the history; finally
record the current request time. -/
def check_rate_limit (request_times : List ℚ) (now : ℚ) : RateCheck :=
  let pruned := request_times.filter (fun t => now - 60 < t)
  if 100 ≤ pruned.length then
    let oldest := pruned.headD 0
    let wait := 60 - (now - oldest) + 1
    if 0 < wait then ⟨some wait, [now]⟩
    else ⟨none, pruned ++ [now]⟩
  else ⟨none, pruned ++ [now]⟩

/-- The response headers `Tally._update_rate_limit` reads:
`X-RateLimit-Remaining` and `X-RateLimit-Reset` (absent key = `none`). -/
structure Headers where
  remaining : Option String
  reset : Option String
deriving Repr, DecidableEq

/-- The server-driven rate bookkeeping of a `Tally` client:
`rate_remaining` (initially 100) and `rate_reset_time`. -/
structure RateState where
  rate_remaining : Int
  rate_reset_time : Option Int
deriving Repr, DecidableEq

/-- `Tally._update_rate_limit` (tally_utils.py lines 115-130): assign
`rate_remaining` from `X-RateLimit-Remaining` when present, then
`rate_reset_time` from `X-RateLimit-Reset` when present; a parse failure
raises `ValueError`/`TypeError`, which the method catches, leaving every
not-yet-assigned field at its previous value. -/
def update_rate_limit (st : RateState) (h : Headers) : RateState :=
  match h.remaining with
  | none =>
    match h.reset with
    | none => st
    | some s =>
      match pyParseInt s with
      | none => st
      | some v => { st with rate_reset_time := some v }
  | some s =>
    match pyParseInt s with
    | none => st
    | some rem =>
      match h.reset with
      | none => { st with rate_remaining := rem }
      | some s2 =>
        match pyParseInt s2 with
        | none => { st with rate_remaining := rem }
        | some v => { rate_remaining := rem, rate_reset_time := some v }

end Tally

namespace Hotmart

/-- The response headers `Hotmart._update_rate_limit` reads:
`X-RateLimit-Limit-Minute`, `X-RateLimit-Remaining-Minute` and
`RateLimit-Reset` (absent key = `none`). -/
structure Headers where
  limitMinute : Option String
  remainingMinute : Option String
  reset : Option String
deriving Repr, DecidableEq

/-- The server-driven rate bookkeeping of a `Hotmart` client
(`rate_limit`, `rate_remaining`, `rate_reset`), initially `⟨500, 500, none⟩`. -/
structure RateState where
  rate_limit : Int
  rate_remaining : Int
  rate_reset : Option Int
deriving Repr, DecidableEq

/-- `Hotmart._update_rate_limit` (hotmart_utils.py lines 86-94): assign
`rate_limit` from `X-RateLimit-Limit-Minute` with default 500, then
`rate_remaining` likewise, then `rate_reset` from `RateLimit-Reset` with
default string `"60"`, substituting 60 when the value is not all digits.
A raised parse error (`ValueError`) is caught, leaving every
not-yet-assigned field at its previous value. -/
def update_rate_limit (st : RateState) (h : Headers) : RateState :=
  match (match h.limitMinute with | none => some 500 | some s => pyParseInt s) with
  | none => st
  | some lim =>
    match (match h.remainingMinute with | none => some 500 | some s => pyParseInt s) with
    | none => { st with rate_limit := lim }
    | some rem =>
      let resetStr := h.reset.getD "60"
      let reset : Int := if isDigits resetStr then ((digitsToNat resetStr.data : Nat) : Int) else 60
      { rate_limit := lim, rate_remaining := rem, rate_reset := some reset }

/-- The mutable attributes of a `Hotmart` client that the embedded methods
touch: the token pair and the rate bookkeeping. -/
structure State where
  access_token : Option String
  token_expiry : Option Int
  rate : RateState
deriving Repr, DecidableEq

/-- Body and headers of a successful token-endpoint response:
`access_token`, the optional `expires_in`, and the response headers fed to
`_update_rate_limit`. -/
structure AuthResp where
  access_token : String
  expires_in : Option Int
  headers : Headers
deriving Repr, DecidableEq

/-- `Hotmart.authenticate` (hotmart_utils.py lines 50-76): on a successful
token response, store the token and `token_expiry = now + expires_in`
(default 3600 when the response omits `expires_in`) and update the rate
bookkeeping from the response headers; a transport failure or non-2xx
status becomes `HotmartAPIError`, modelled as the `.error` case of the
oracle outcome `out`. -/
def authenticate (out : Except Unit AuthResp) (now : Int) (st : State) :
    Except Unit State :=
  match out with
  | .error _ => .error ()
  | .ok resp =>
    .ok { access_token := some resp.access_token,
          token_expiry := some (now + resp.expires_in.getD 3600),
          rate := update_rate_limit st.rate resp.headers }

/-- `Hotmart._ensure_authenticated` (hotmart_utils.py lines 96-100):
authenticate exactly once when the token is absent/falsy or when
`token_expiry` is set and `now >= token_expiry`; otherwise do nothing.
Returns the new state together with the number of `authenticate` calls. -/
def ensure_authenticated (out : Except Unit AuthResp) (now : Int) (st : State) :
    Except Unit (State × Nat) :=
  if optFalsy st.access_token
      || (match st.token_expiry with | some e => decide (e ≤ now) | none => false) then
    (authenticate out now st).map (fun s => (s, 1))
  else
    .ok (st, 0)

end Hotmart

namespace Tally

/-- Outcome of one `requests.request` attempt by the Tally client: an HTTP
response with its status and rate-limit headers, a
`requests.exceptions.Timeout`, or another connection-level
`requests.exceptions.RequestException`. -/
inductive Outcome where
  | http (status : Nat) (headers : Headers)
  | timeout
  | connErr
deriving Repr, DecidableEq

/-- The `TallyAPIError` variants `make_request` can raise: the 429 message
after exhausted retries, the timeout message carrying the attempt count,
the wrapped request error (including HTTP 4xx/5xx raised by
`raise_for_status`), and the fall-through raise after the loop. -/
inductive Err where
  | rateLimitExceeded
  | timeoutAfter (attempts : Nat)
  | requestError
  | exhausted
deriving Repr, DecidableEq

/-- State of a `Tally` client threaded through `make_request`: the
client-tracked sliding window and the server-driven bookkeeping. -/
structure State where
  request_times : List ℚ
  rate : RateState
deriving Repr, DecidableEq

/-- A fresh `Tally` client: empty request history, `rate_remaining`
initialised to `RATE_LIMIT = 100`, no reset time. -/
def initState : State := ⟨[], ⟨100, none⟩⟩

/-- Trace of one `Tally.make_request` call: its result (success keeps the
HTTP status), the number of network attempts, the retry sleeps (the 60 s
429-waits and the `2^attempt` backoffs, in order), the admission-control
sleeps performed by `_check_rate_limit`, and the final client state. -/
structure Trace where
  result : Except Err Nat
  attempts : Nat
  retrySleeps : List Nat
  rateSleeps : List ℚ
  finalState : State
deriving Repr

/-- One-or-more remaining iterations of the retry loop of
`Tally.make_request` (tally_utils.py lines 164-212). `oracle i` is the
outcome of the network call of attempt `i`, `times i` the value of
`time.time()` inside `_check_rate_limit` on attempt `i`, and
`fuel = max_retries - attempt` the number of loop iterations left.
Each iteration: admission control, the network call, then on an HTTP
response `_update_rate_limit`; a 429 sleeps 60 s and retries unless this
was the last attempt (then `TallyAPIError` for the rate limit); any other
non-2xx in 400..599 makes `raise_for_status` raise an `HTTPError`, which
the `RequestException` handler catches, sleeping `2^attempt` and retrying
unless this was the last attempt; a timeout or connection error behaves
the same with its own error message; a remaining status is returned. -/
def requestLoop (oracle : Nat → Outcome) (times : Nat → ℚ) (maxRetries : Nat) :
    Nat → Nat → State → Trace
  | 0, _, st => ⟨.error .exhausted, 0, [], [], st⟩
  | fuel + 1, attempt, st =>
    let rl := check_rate_limit st.request_times (times attempt)
    let st := { st with request_times := rl.newTimes }
    let rateS := rl.waited.toList
    match oracle attempt with
    | .timeout =>
      if attempt = maxRetries - 1 then
        ⟨.error (.timeoutAfter maxRetries), 1, [], rateS, st⟩
      else
        let t := requestLoop oracle times maxRetries fuel (attempt + 1) st
        ⟨t.result, t.attempts + 1, 2 ^ attempt :: t.retrySleeps,
          rateS ++ t.rateSleeps, t.finalState⟩
    | .connErr =>
      if attempt = maxRetries - 1 then
        ⟨.error .requestError, 1, [], rateS, st⟩
      else
        let t := requestLoop oracle times maxRetries fuel (attempt + 1) st
        ⟨t.result, t.attempts + 1, 2 ^ attempt :: t.retrySleeps,
          rateS ++ t.rateSleeps, t.finalState⟩
    | .http status h =>
      let st := { st with rate := update_rate_limit st.rate h }
      if status = 429 then
        if attempt < maxRetries - 1 then
          let t := requestLoop oracle times maxRetries fuel (attempt + 1) st
          ⟨t.result, t.attempts + 1, 60 :: t.retrySleeps,
            rateS ++ t.rateSleeps, t.finalState⟩
        else
          ⟨.error .rateLimitExceeded, 1, [], rateS, st⟩
      else if 400 ≤ status ∧ status < 600 then
        if attempt = maxRetries - 1 then
          ⟨.error .requestError, 1, [], rateS, st⟩
        else
          let t := requestLoop oracle times maxRetries fuel (attempt + 1) st
          ⟨t.result, t.attempts + 1, 2 ^ attempt :: t.retrySleeps,
            rateS ++ t.rateSleeps, t.finalState⟩
      else
        ⟨.ok status, 1, [], rateS, st⟩

/-- `Tally.make_request` on a fresh client: run the retry loop from
attempt 0 with `max_retries` iterations available. -/
def make_request (oracle : Nat → Outcome) (times : Nat → ℚ)
    (maxRetries : Nat) (st : State) : Trace :=
  requestLoop oracle times maxRetries maxRetries 0 st

end Tally

namespace TMB

/-- Outcome of one `requests.request` attempt by the TMB client (the TMB
client keeps no rate bookkeeping, so no headers are read). -/
inductive Outcome where
  | http (status : Nat)
  | timeout
  | connErr
deriving Repr, DecidableEq

/-- The `TMBAPIError` variants `make_request` can raise. -/
inductive Err where
  | rateLimitExceeded
  | timeoutAfter (attempts : Nat)
  | requestError
  | exhausted
deriving Repr, DecidableEq

/-- Trace of one `TMB.make_request` call. -/
structure Trace where
  result : Except Err Nat
  attempts : Nat
  retrySleeps : List Nat
deriving Repr

/-- Remaining iterations of the retry loop of `TMB.make_request`
(tmb_utils.py lines 91-127); identical retry structure to the Tally
client but with no admission control and no header bookkeeping. -/
def requestLoop (oracle : Nat → Outcome) (maxRetries : Nat) :
    Nat → Nat → Trace
  | 0, _ => ⟨.error .exhausted, 0, []⟩
  | fuel + 1, attempt =>
    match oracle attempt with
    | .timeout =>
      if attempt = maxRetries - 1 then
        ⟨.error (.timeoutAfter maxRetries), 1, []⟩
      else
        let t := requestLoop oracle maxRetries fuel (attempt + 1)
        ⟨t.result, t.attempts + 1, 2 ^ attempt :: t.retrySleeps⟩
    | .connErr =>
      if attempt = maxRetries - 1 then
        ⟨.error .requestError, 1, []⟩
      else
        let t := requestLoop oracle maxRetries fuel (attempt + 1)
        ⟨t.result, t.attempts + 1, 2 ^ attempt :: t.retrySleeps⟩
    | .http status =>
      if status = 429 then
        if attempt < maxRetries - 1 then
          let t := requestLoop oracle maxRetries fuel (attempt + 1)
          ⟨t.result, t.attempts + 1, 60 :: t.retrySleeps⟩
        else
          ⟨.error .rateLimitExceeded, 1, []⟩
      else if 400 ≤ status ∧ status < 600 then
        if attempt = maxRetries - 1 then
          ⟨.error .requestError, 1, []⟩
        else
          let t := requestLoop oracle maxRetries fuel (attempt + 1)
          ⟨t.result, t.attempts + 1, 2 ^ attempt :: t.retrySleeps⟩
      else
        ⟨.ok status, 1, []⟩

/-- `TMB.make_request`: run the retry loop from attempt 0. -/
def make_request (oracle : Nat → Outcome) (maxRetries : Nat) : Trace :=
  requestLoop oracle maxRetries maxRetries 0

end TMB

namespace Hotmart

/-- Outcome of one `requests.request` attempt by the Hotmart client. -/
inductive Outcome where
  | http (status : Nat) (headers : Headers)
  | timeout
  | connErr
deriving Repr, DecidableEq

/-- The `HotmartAPIError` variants reachable from `make_request`:
the authentication failure raised by `authenticate`, and the retry-loop
errors as in the other clients. -/
inductive Err where
  | authError
  | rateLimitExceeded
  | timeoutAfter (attempts : Nat)
  | requestError
  | exhausted
deriving Repr, DecidableEq

/-- Python `self.rate_reset or 60`: `None` and 0 are falsy. -/
def pyOr60 : Option Int → Int
  | none => 60
  | some v => if v = 0 then 60 else v

/-- Trace of the retry loop of `Hotmart.make_request`. -/
structure LoopTrace where
  result : Except Err Nat
  attempts : Nat
  retrySleeps : List Int
  finalState : State
deriving Repr

/-- Remaining iterations of the retry loop of `Hotmart.make_request`
(hotmart_utils.py lines 187-224). Each iteration: the network call, then
on an HTTP response `_update_rate_limit`; a 429 sleeps
`self.rate_reset or 60` and retries unless this was the last attempt;
any other status in 400..599 makes `raise_for_status` raise an
`HTTPError`, caught by the `RequestException` handler, which sleeps
`2^attempt` and retries unless this was the last attempt; timeouts and
connection errors behave the same with their own messages. -/
def requestLoop (oracle : Nat → Outcome) (maxRetries : Nat) :
    Nat → Nat → State → LoopTrace
  | 0, _, st => ⟨.error .exhausted, 0, [], st⟩
  | fuel + 1, attempt, st =>
    match oracle attempt with
    | .timeout =>
      if attempt = maxRetries - 1 then
        ⟨.error (.timeoutAfter maxRetries), 1, [], st⟩
      else
        let t := requestLoop oracle maxRetries fuel (attempt + 1) st
        ⟨t.result, t.attempts + 1, (2 ^ attempt : Int) :: t.retrySleeps, t.finalState⟩
    | .connErr =>
      if attempt = maxRetries - 1 then
        ⟨.error .requestError, 1, [], st⟩
      else
        let t := requestLoop oracle maxRetries fuel (attempt + 1) st
        ⟨t.result, t.attempts + 1, (2 ^ attempt : Int) :: t.retrySleeps, t.finalState⟩
    | .http status h =>
      let st := { st with rate := update_rate_limit st.rate h }
      if status = 429 then
        if attempt < maxRetries - 1 then
          let t := requestLoop oracle maxRetries fuel (attempt + 1) st
          ⟨t.result, t.attempts + 1, pyOr60 st.rate.rate_reset :: t.retrySleeps, t.finalState⟩
        else
          ⟨.error .rateLimitExceeded, 1, [], st⟩
      else if 400 ≤ status ∧ status < 600 then
        if attempt = maxRetries - 1 then
          ⟨.error .requestError, 1, [], st⟩
        else
          let t := requestLoop oracle maxRetries fuel (attempt + 1) st
          ⟨t.result, t.attempts + 1, (2 ^ attempt : Int) :: t.retrySleeps, t.finalState⟩
      else
        ⟨.ok status, 1, [], st⟩

/-- Trace of one full `Hotmart.make_request` call: loop fields plus the
number of `authenticate` calls performed by `_ensure_authenticated` and
the pre-loop admission sleep. -/
structure Trace where
  result : Except Err Nat
  attempts : Nat
  retrySleeps : List Int
  authCount : Nat
  preSleep : Option Int
  finalState : State
deriving Repr

/-- `Hotmart.make_request` (hotmart_utils.py lines 148-224):
`_ensure_authenticated` first (its `HotmartAPIError` propagates with no
network attempt of the request itself), then the pre-loop admission
control (`if self.rate_remaining <= 0 and self.rate_reset:` sleep
`rate_reset - int(time.time())` when positive), then the retry loop. -/
def make_request (authOut : Except Unit AuthResp) (now : Int)
    (oracle : Nat → Outcome) (maxRetries : Nat) (st : State) : Trace :=
  match ensure_authenticated authOut now st with
  | .error _ => ⟨.error .authError, 0, [], 0, none, st⟩
  | .ok (st1, c) =>
    let pre : Option Int :=
      if st1.rate.rate_remaining ≤ 0
          && (match st1.rate.rate_reset with | none => false | some v => decide (v ≠ 0)) then
        let w := st1.rate.rate_reset.getD 0 - now
        if 0 < w then some w else none
      else none
    let t := requestLoop oracle maxRetries maxRetries 0 st1
    ⟨t.result, t.attempts, t.retrySleeps, c, pre, t.finalState⟩

end Hotmart

namespace Tally

/-- The JSON response shapes `Tally.get_form_submissions` distinguishes
(tally_utils.py lines 343-349): a dict (with its `data` array and
`pagination.after` cursor, either possibly absent), a raw JSON array, or
anything else. -/
inductive PageResp (α : Type) where
  | dict (data : List α) (after : Option String)
  | arr (data : List α)
  | other
deriving Repr, DecidableEq

/-- Item/cursor extraction of `get_form_submissions`: a dict yields
`data.get('data', [])` and `data.get('pagination', {}).get('after')`; a
raw list yields itself with cursor `None`; anything else yields no items
and cursor `None`. -/
def extractPage {α : Type} : PageResp α → List α × Option String
  | .dict d a => (d, a)
  | .arr d => (d, none)
  | .other => ([], none)

/-- The pagination loop of `Tally.get_form_submissions` (tally_utils.py
lines 304-373) over a script of `make_request` outcomes, carrying the
accumulator `all_submissions`. Each round extends the accumulator with
the page's items, then breaks when the `after` cursor is falsy or the
item list is empty; a raised `TallyAPIError` is caught outside the loop
and the accumulator collected so far is returned. A script that runs out
is returned as accumulated (the theorems below only use scripts that
contain a terminal page or an error). -/
def fetchSubmissions {α : Type} : List (Except Unit (PageResp α)) → List α → List α
  | [], acc => acc
  | .error _ :: _, acc => acc
  | .ok r :: rest, acc =>
    let page := extractPage r
    let acc2 := acc ++ page.1
    if optFalsy page.2 || page.1.isEmpty then acc2
    else fetchSubmissions rest acc2

/-- `Tally.get_form_submissions` on the scripted responses, starting from
the empty accumulator. -/
def get_form_submissions {α : Type} (script : List (Except Unit (PageResp α))) : List α :=
  fetchSubmissions script []

end Tally

namespace Hotmart

/-- One page of the Hotmart sales-history response, as
`get_sales_history` reads it: `data.get('items', [])` and
`data.get('page_info', {}).get('next_page_token')`. -/
structure Page (α : Type) where
  items : List α
  next_page_token : Option String
deriving Repr, DecidableEq

/-- The pagination loop of `Hotmart.get_sales_history` (hotmart_utils.py
lines 285-325) over a script of `make_request` outcomes. Each round
extends the accumulator with the page's items and breaks only when
`next_page_token` is falsy (`if not page_token: break`); a raised
`HotmartAPIError` is caught inside the loop and breaks, returning the
accumulator collected so far. A script that runs out is returned as
accumulated (the theorems below only use scripts that contain a terminal
page or an error). -/
def fetchSales {α : Type} : List (Except Unit (Page α)) → List α → List α
  | [], acc => acc
  | .error _ :: _, acc => acc
  | .ok p :: rest, acc =>
    let acc2 := acc ++ p.items
    if optFalsy p.next_page_token then acc2
    else fetchSales rest acc2

/-- `Hotmart.get_sales_history` on the scripted responses, starting from
the empty accumulator. -/
def get_sales_history {α : Type} (script : List (Except Unit (Page α))) : List α :=
  fetchSales script []

end Hotmart

namespace DatabaseConnection

/-- The statistics dict returned by
`DatabaseConnection.execute_batch_update`; the error-message strings are
modelled by the 1-based numbers of the failing batches (`elapsed_time`,
pure wall-clock bookkeeping, is not modelled). -/
structure BatchOutcome where
  total_records : Nat
  total_affected : Nat
  batches : Nat
  success : Nat
  failed : Nat
  errors : List Nat
deriving Repr, DecidableEq

/-- The slices `params_list[i:i + batch_size]` for
`i in range(0, total_records, batch_size)`: contiguous chunks in order,
empty for an empty list. The `sz = 0` case is unreachable (the caller
raises on it) and returns junk. -/
def chunkList {α : Type} : List α → Nat → List (List α)
  | [], _ => []
  | a :: l, sz =>
    if _h : 0 < sz then
      ((a :: l).take sz) :: chunkList ((a :: l).drop sz) sz
    else []
termination_by l _ => l.length
decreasing_by
  simp only [List.length_drop, List.length_cons]
  omega

/-- The running counters of `execute_batch_update`. -/
structure BatchAcc where
  total_affected : Nat
  batches : Nat
  success : Nat
  failed : Nat
  errors : List Nat
deriving Repr, DecidableEq

/-- The per-chunk loop of `execute_batch_update` (sql_utils.py lines
386-415): `exec i c` is the outcome of `conn.execute(text(query), c)` for
the chunk with 0-based index `i` — its rowcount on success, or the raised
database error. A successful chunk adds its rowcount to `total_affected`,
its length to `success` and 1 to `batches`; a failing chunk adds its
length to `failed` and appends its 1-based batch number to `errors`, and
the loop continues. -/
def batchLoop {P : Type} (exec : Nat → List P → Except Unit Nat) :
    List (List P) → Nat → BatchAcc → BatchAcc
  | [], _, acc => acc
  | c :: cs, i, acc =>
    match exec i c with
    | .ok affected =>
      batchLoop exec cs (i + 1)
        { acc with
          total_affected := acc.total_affected + affected,
          success := acc.success + c.length,
          batches := acc.batches + 1 }
    | .error _ =>
      batchLoop exec cs (i + 1)
        { acc with
          failed := acc.failed + c.length,
          errors := acc.errors ++ [i + 1] }

/-- `DatabaseConnection.execute_batch_update` (sql_utils.py lines
314-443): an empty `params_list` returns the all-zero outcome without
opening a transaction; otherwise the chunks are processed in one
transaction by `batchLoop` and the outcome assembled with
`total_records = len(params_list)`. A `batch_size` of 0 makes
`range(0, n, 0)` raise, re-raised by the outer handler as the critical
error (`.error`); per-chunk database errors never escape. -/
def execute_batch_update {P : Type} (params_list : List P) (batch_size : Nat)
    (exec : Nat → List P → Except Unit Nat) : Except Unit BatchOutcome :=
  if params_list.length = 0 then
    .ok ⟨0, 0, 0, 0, 0, []⟩
  else if batch_size = 0 then
    .error ()
  else
    let acc := batchLoop exec (chunkList params_list batch_size) 0 ⟨0, 0, 0, 0, []⟩
    .ok ⟨params_list.length, acc.total_affected, acc.batches, acc.success,
      acc.failed, acc.errors⟩

end DatabaseConnection

/-- The stopping test of the Tally pagination loop
(`if not after or not submissions: break`). -/
def Tally.stopPage {α : Type} (p : Tally.PageResp α) : Bool :=
  optFalsy (Tally.extractPage p).2 || (Tally.extractPage p).1.isEmpty

/-- The chunk sizes `execute_batch_update` produces for `n` records and
chunk size `sz`, computed numerically. -/
def DatabaseConnection.chunkSizes (n sz : Nat) : List Nat :=
  if _h : 0 < sz ∧ 0 < n then min sz n :: DatabaseConnection.chunkSizes (n - sz) sz else []
termination_by n
decreasing_by omega

section RateLimiterClaims

/-- C8. The claim asserts the computed sleep is strictly below
`windowSeconds + margin = 61`; but when all 100 retained timestamps equal
`now` (100 instantaneous calls), the sleep is `60 - (now - now) + 1 = 61`
exactly, not strictly less. -/
theorem C8_counterexample :
    (Tally.check_rate_limit (List.replicate 100 (0 : ℚ)) 0).waited = some 61 ∧
      ¬ ((61 : ℚ) < 60 + 1) := by
  have hf : List.filter (fun t => decide ((0 : ℚ) - 60 < t)) (List.replicate 100 (0 : ℚ))
      = List.replicate 100 (0 : ℚ) := by
    rw [List.filter_replicate]
    norm_num
  constructor
  · simp only [Tally.check_rate_limit]
    rw [hf, List.length_replicate, if_pos (le_refl 100)]
    have hh : (List.replicate 100 (0 : ℚ)).headD 0 = 0 := rfl
    rw [hh, if_pos (by norm_num : (0 : ℚ) < 60 - (0 - 0) + 1)]
    norm_num
  · norm_num

/-- C8 (amended). When after pruning the tracked list has at least 100
entries and every tracked timestamp is at most `now`, the computed sleep
`60 - (now - oldest) + 1` is strictly positive and at most `61 =
windowSeconds + margin` (it equals 61 exactly when the oldest retained
timestamp equals `now`), and the history afterwards holds only the
current call; otherwise no sleep happens and the current timestamp is
appended to the pruned history. -/
theorem C8_amended :
    (∀ (times : List ℚ) (now : ℚ), (∀ t ∈ times, t ≤ now) →
      100 ≤ (times.filter (fun t => now - 60 < t)).length →
      ∃ w, (Tally.check_rate_limit times now).waited = some w ∧ 0 < w ∧ w ≤ 61 ∧
        (Tally.check_rate_limit times now).newTimes = [now]) ∧
    (∀ (times : List ℚ) (now : ℚ),
      (times.filter (fun t => now - 60 < t)).length < 100 →
      (Tally.check_rate_limit times now).waited = none ∧
      (Tally.check_rate_limit times now).newTimes
        = times.filter (fun t => now - 60 < t) ++ [now]) := by
  constructor
  · intro times now hle hlen
    have hne : times.filter (fun t => now - 60 < t) ≠ [] := by
      intro h
      rw [h] at hlen
      simp at hlen
    have hmem : (times.filter (fun t => now - 60 < t)).headD 0
        ∈ times.filter (fun t => now - 60 < t) := by
      cases h : times.filter (fun t => now - 60 < t) with
      | nil => exact absurd h hne
      | cons a l => simp
    have h1 : now - 60 < (times.filter (fun t => now - 60 < t)).headD 0 := by
      have := List.mem_filter.mp hmem
      simpa using this.2
    have h2 : (times.filter (fun t => now - 60 < t)).headD 0 ≤ now :=
      hle _ (List.mem_filter.mp hmem).1
    have hw : (0 : ℚ) < 60 - (now - (times.filter (fun t => now - 60 < t)).headD 0) + 1 := by
      linarith
    refine ⟨60 - (now - (times.filter (fun t => now - 60 < t)).headD 0) + 1, ?_, hw, ?_, ?_⟩
    · simp only [Tally.check_rate_limit]
      rw [if_pos hlen, if_pos hw]
    · linarith
    · simp only [Tally.check_rate_limit]
      rw [if_pos hlen, if_pos hw]
  · intro times now hlen
    have hnot : ¬ 100 ≤ (times.filter (fun t => now - 60 < t)).length := by omega
    constructor
    · simp only [Tally.check_rate_limit]
      rw [if_neg hnot]
    · simp only [Tally.check_rate_limit]
      rw [if_neg hnot]

/-- Witness for C8 (amended): a window of 100 timestamps at time 0 seen
at `now = 30` blocks with a sleep in `(0, 61]` and clears the history;
a window of one timestamp does not block. -/
theorem C8_witness :
    (∃ w, (Tally.check_rate_limit (List.replicate 100 (0 : ℚ)) 30).waited = some w ∧
      0 < w ∧ w ≤ 61 ∧
      (Tally.check_rate_limit (List.replicate 100 (0 : ℚ)) 30).newTimes = [30]) ∧
    ((Tally.check_rate_limit [(0 : ℚ)] 30).waited = none ∧
      (Tally.check_rate_limit [(0 : ℚ)] 30).newTimes
        = [(0 : ℚ)].filter (fun t => 30 - 60 < t) ++ [30]) :=
  ⟨C8_amended.1 (List.replicate 100 (0 : ℚ)) 30
      (by
        intro t ht
        rw [List.eq_of_mem_replicate ht]
        norm_num)
      (by
        rw [List.filter_replicate]
        norm_num),
    C8_amended.2 [(0 : ℚ)] 30
      (by
        norm_num [List.filter])⟩

/-- C9. The claim asserts that on missing headers the previously stored
values are kept; but `Hotmart._update_rate_limit` substitutes defaults:
with no headers at all, a stored `remaining = 7, reset = 30` becomes
`remaining = 500, reset = 60`. -/
theorem C9_counterexample :
    Hotmart.update_rate_limit ⟨500, 7, some 30⟩ ⟨none, none, none⟩
        = ⟨500, 500, some 60⟩ ∧
      (⟨500, 500, some 60⟩ : Hotmart.RateState) ≠ ⟨500, 7, some 30⟩ := by
  decide

/-- C9 (amended). Neither updater raises (both are total state
transformers — every parse failure is caught). `Tally._update_rate_limit`
keeps the previous values whenever each of its two headers is missing or
malformed. `Hotmart._update_rate_limit` keeps all previous values only
when a present `X-RateLimit-Limit-Minute` fails integer parsing; when the
headers are missing it overwrites the state with the defaults
`limit = 500, remaining = 500, reset = 60`. -/
theorem C9_amended :
    (∀ (st : Tally.RateState) (h : Tally.Headers),
      (h.remaining = none ∨ ∃ s, h.remaining = some s ∧ pyParseInt s = none) →
      (h.reset = none ∨ ∃ s, h.reset = some s ∧ pyParseInt s = none) →
      Tally.update_rate_limit st h = st) ∧
    (∀ st : Hotmart.RateState,
      Hotmart.update_rate_limit st ⟨none, none, none⟩ = ⟨500, 500, some 60⟩) ∧
    (∀ (st : Hotmart.RateState) (h : Hotmart.Headers) (s : String),
      h.limitMinute = some s → pyParseInt s = none →
      Hotmart.update_rate_limit st h = st) := by
  refine ⟨?_, ?_, ?_⟩
  · intro st h hrem hres
    rcases hrem with hrem | hrem
    · rcases hres with hres | hres
      · simp [Tally.update_rate_limit, hrem, hres]
      · obtain ⟨s2, hs2, hps2⟩ := hres
        simp [Tally.update_rate_limit, hrem, hs2, hps2]
    · obtain ⟨s, hs, hps⟩ := hrem
      rcases hres with hres | hres
      · simp [Tally.update_rate_limit, hs, hps, hres]
      · obtain ⟨s2, hs2, hps2⟩ := hres
        simp [Tally.update_rate_limit, hs, hps, hs2, hps2]
  · intro st
    rfl
  · intro st h s hs hps
    simp [Hotmart.update_rate_limit, hs, hps]

/-- Witness for C9 (amended): concrete malformed/missing headers. -/
theorem C9_witness :
    (Tally.update_rate_limit ⟨7, some 30⟩ ⟨some "abc", none⟩ = ⟨7, some 30⟩) ∧
    (Hotmart.update_rate_limit ⟨400, 7, some 30⟩ ⟨none, none, none⟩
      = ⟨500, 500, some 60⟩) ∧
    (Hotmart.update_rate_limit ⟨400, 7, some 30⟩ ⟨some "xy", some "3", some "4"⟩
      = ⟨400, 7, some 30⟩) :=
  ⟨C9_amended.1 ⟨7, some 30⟩ ⟨some "abc", none⟩ (Or.inr ⟨"abc", rfl, by decide⟩)
      (Or.inl rfl),
    C9_amended.2.1 ⟨400, 7, some 30⟩,
    C9_amended.2.2 ⟨400, 7, some 30⟩ ⟨some "xy", some "3", some "4"⟩ "xy" rfl
      (by decide)⟩

end RateLimiterClaims

section TokenClaims

/-- C4. A token is treated as expired exactly when `now >= token_expiry`:
a request ensuring authentication with an absent/falsy token or with
`token_expiry ≤ now` (boundary included) performs exactly one
re-authentication, storing the new token and
`expiry = now + expires_in` (default 3600 when the auth response omits
`expires_in`); with a present token and `now < token_expiry` no
re-authentication occurs; and `make_request` performs exactly one
authentication before issuing the underlying request in the expired
case. -/
theorem C4_token_expiry :
    (∀ (st : Hotmart.State) (now : Int) (resp : Hotmart.AuthResp),
      (optFalsy st.access_token = true ∨ ∃ e, st.token_expiry = some e ∧ e ≤ now) →
      Hotmart.ensure_authenticated (.ok resp) now st
        = .ok (⟨some resp.access_token, some (now + resp.expires_in.getD 3600),
            Hotmart.update_rate_limit st.rate resp.headers⟩, 1)) ∧
    (∀ (st : Hotmart.State) (now : Int) (out : Except Unit Hotmart.AuthResp),
      optFalsy st.access_token = false →
      (∀ e, st.token_expiry = some e → now < e) →
      Hotmart.ensure_authenticated out now st = .ok (st, 0)) ∧
    (∀ (st : Hotmart.State) (now : Int) (resp : Hotmart.AuthResp),
      resp.expires_in = none →
      Hotmart.authenticate (.ok resp) now st
        = .ok ⟨some resp.access_token, some (now + 3600),
            Hotmart.update_rate_limit st.rate resp.headers⟩) ∧
    (∀ (st : Hotmart.State) (now : Int) (resp : Hotmart.AuthResp)
        (oracle : Nat → Hotmart.Outcome) (mr : Nat),
      (optFalsy st.access_token = true ∨ ∃ e, st.token_expiry = some e ∧ e ≤ now) →
      (Hotmart.make_request (.ok resp) now oracle mr st).authCount = 1) := by
  have hcond : ∀ (st : Hotmart.State) (now : Int),
      (optFalsy st.access_token = true ∨ ∃ e, st.token_expiry = some e ∧ e ≤ now) →
      (optFalsy st.access_token
        || (match st.token_expiry with
            | some e => decide (e ≤ now)
            | none => false)) = true := by
    intro st now hc
    rcases hc with hf | ⟨e, he, hle⟩
    · simp [hf]
    · simp [he, hle]
  refine ⟨?_, ?_, ?_, ?_⟩
  · intro st now resp hc
    simp [Hotmart.ensure_authenticated, Hotmart.authenticate, Except.map,
      hcond st now hc]
  · intro st now out hf hval
    have hm : (match st.token_expiry with
        | some e => decide (e ≤ now)
        | none => false) = false := by
      cases hte : st.token_expiry with
      | none => rfl
      | some e =>
        have := hval e hte
        simp
        omega
    simp [Hotmart.ensure_authenticated, hf, hm]
  · intro st now resp hnone
    simp [Hotmart.authenticate, hnone]
  · intro st now resp oracle mr hc
    simp [Hotmart.make_request, Hotmart.ensure_authenticated, Hotmart.authenticate,
      Except.map, hcond st now hc]

/-- Witness for C4: a token expiring exactly at `now = 5` triggers one
re-authentication; a token expiring at 10 seen at `now = 5` triggers
none; an auth response without `expires_in` stores `now + 3600`;
`make_request` with the boundary-expired token authenticates once. -/
theorem C4_witness :
    (Hotmart.ensure_authenticated
        (.ok ⟨"new", some 100, ⟨none, none, none⟩⟩) 5
        ⟨some "old", some 5, ⟨500, 500, none⟩⟩
      = .ok (⟨some "new", some 105,
          Hotmart.update_rate_limit ⟨500, 500, none⟩ ⟨none, none, none⟩⟩, 1)) ∧
    (Hotmart.ensure_authenticated
        (.ok ⟨"new", some 100, ⟨none, none, none⟩⟩) 5
        ⟨some "old", some 10, ⟨500, 500, none⟩⟩
      = .ok (⟨some "old", some 10, ⟨500, 500, none⟩⟩, 0)) ∧
    (Hotmart.authenticate (.ok ⟨"new", none, ⟨none, none, none⟩⟩) 5
        ⟨some "old", some 5, ⟨500, 500, none⟩⟩
      = .ok ⟨some "new", some 3605,
          Hotmart.update_rate_limit ⟨500, 500, none⟩ ⟨none, none, none⟩⟩) ∧
    ((Hotmart.make_request (.ok ⟨"new", some 100, ⟨none, none, none⟩⟩) 5
        (fun _ => .http 200 ⟨none, none, none⟩) 1
        ⟨some "old", some 5, ⟨500, 500, none⟩⟩).authCount = 1) :=
  ⟨C4_token_expiry.1 ⟨some "old", some 5, ⟨500, 500, none⟩⟩ 5
      ⟨"new", some 100, ⟨none, none, none⟩⟩ (Or.inr ⟨5, rfl, by decide⟩),
    C4_token_expiry.2.1 ⟨some "old", some 10, ⟨500, 500, none⟩⟩ 5
      (.ok ⟨"new", some 100, ⟨none, none, none⟩⟩) (by decide)
      (by
        intro e he
        cases he
        decide),
    C4_token_expiry.2.2.1 ⟨some "old", some 5, ⟨500, 500, none⟩⟩ 5
      ⟨"new", none, ⟨none, none, none⟩⟩ rfl,
    C4_token_expiry.2.2.2 ⟨some "old", some 5, ⟨500, 500, none⟩⟩ 5
      ⟨"new", some 100, ⟨none, none, none⟩⟩ (fun _ => .http 200 ⟨none, none, none⟩) 1
      (Or.inr ⟨5, rfl, by decide⟩)⟩

end TokenClaims

section PaginationLemmas

/-- Accumulator form of the Tally pagination loop over a script of good
pages followed by a stopping page and an arbitrary unconsumed suffix:
the loop terminates at the stopping page, appending all items up to and
including it and ignoring every scripted response after it. -/
lemma tally_fetch_script {α : Type} :
    ∀ (ps : List (Tally.PageResp α)) (plast : Tally.PageResp α)
      (rest : List (Except Unit (Tally.PageResp α))) (acc : List α),
      (∀ p ∈ ps, Tally.stopPage p = false) → Tally.stopPage plast = true →
      Tally.fetchSubmissions (ps.map Except.ok ++ Except.ok plast :: rest) acc
        = acc ++ (ps ++ [plast]).flatMap (fun p => (Tally.extractPage p).1) := by
  intro ps
  induction ps with
  | nil =>
    intro plast rest acc _ hstop
    simp only [List.nil_append, List.map_nil, List.flatMap_cons,
      List.flatMap_nil, List.append_nil]
    simp only [Tally.fetchSubmissions]
    have : (optFalsy (Tally.extractPage plast).2 || (Tally.extractPage plast).1.isEmpty)
        = true := hstop
    simp [this]
  | cons p ps ih =>
    intro plast rest acc hgood hstop
    have hp : Tally.stopPage p = false := hgood p (List.mem_cons_self p ps)
    have hrest : ∀ q ∈ ps, Tally.stopPage q = false :=
      fun q hq => hgood q (List.mem_cons_of_mem p hq)
    simp only [List.cons_append, List.map_cons, List.flatMap_cons]
    simp only [Tally.fetchSubmissions]
    have : (optFalsy (Tally.extractPage p).2 || (Tally.extractPage p).1.isEmpty)
        = false := hp
    simp only [this, Bool.false_eq_true, if_false]
    rw [ih plast rest (acc ++ (Tally.extractPage p).1) hrest hstop]
    simp

/-- Accumulator form of the Tally pagination loop hitting a raised
`TallyAPIError` after a prefix of good pages: the accumulated items are
returned. -/
lemma tally_fetch_error {α : Type} :
    ∀ (ps : List (Tally.PageResp α)) (rest : List (Except Unit (Tally.PageResp α)))
      (acc : List α),
      (∀ p ∈ ps, Tally.stopPage p = false) →
      Tally.fetchSubmissions (ps.map Except.ok ++ Except.error () :: rest) acc
        = acc ++ ps.flatMap (fun p => (Tally.extractPage p).1) := by
  intro ps
  induction ps with
  | nil =>
    intro rest acc _
    simp [Tally.fetchSubmissions]
  | cons p ps ih =>
    intro rest acc hgood
    have hp : Tally.stopPage p = false := hgood p (List.mem_cons_self p ps)
    have hrest : ∀ q ∈ ps, Tally.stopPage q = false :=
      fun q hq => hgood q (List.mem_cons_of_mem p hq)
    simp only [List.cons_append, List.map_cons, List.flatMap_cons]
    simp only [Tally.fetchSubmissions]
    have : (optFalsy (Tally.extractPage p).2 || (Tally.extractPage p).1.isEmpty)
        = false := hp
    simp only [this, Bool.false_eq_true, if_false]
    rw [ih rest (acc ++ (Tally.extractPage p).1) hrest]
    simp

/-- Accumulator form of the Hotmart pagination loop over good pages
followed by a page with a falsy `next_page_token` and an arbitrary
unconsumed suffix: the loop terminates at that page, ignoring every
scripted response after it. -/
lemma hotmart_fetch_script {α : Type} :
    ∀ (ps : List (Hotmart.Page α)) (plast : Hotmart.Page α)
      (rest : List (Except Unit (Hotmart.Page α))) (acc : List α),
      (∀ p ∈ ps, optFalsy p.next_page_token = false) →
      optFalsy plast.next_page_token = true →
      Hotmart.fetchSales (ps.map Except.ok ++ Except.ok plast :: rest) acc
        = acc ++ (ps ++ [plast]).flatMap Hotmart.Page.items := by
  intro ps
  induction ps with
  | nil =>
    intro plast rest acc _ hstop
    simp [Hotmart.fetchSales, hstop]
  | cons p ps ih =>
    intro plast rest acc hgood hstop
    have hp : optFalsy p.next_page_token = false := hgood p (List.mem_cons_self p ps)
    have hrest : ∀ q ∈ ps, optFalsy q.next_page_token = false :=
      fun q hq => hgood q (List.mem_cons_of_mem p hq)
    simp only [List.cons_append, List.map_cons, List.flatMap_cons]
    simp only [Hotmart.fetchSales, hp, Bool.false_eq_true, if_false]
    rw [ih plast rest (acc ++ p.items) hrest hstop]
    simp

/-- Accumulator form of the Hotmart pagination loop hitting a raised
`HotmartAPIError` after a prefix of good pages. -/
lemma hotmart_fetch_error {α : Type} :
    ∀ (ps : List (Hotmart.Page α)) (rest : List (Except Unit (Hotmart.Page α)))
      (acc : List α),
      (∀ p ∈ ps, optFalsy p.next_page_token = false) →
      Hotmart.fetchSales (ps.map Except.ok ++ Except.error () :: rest) acc
        = acc ++ ps.flatMap Hotmart.Page.items := by
  intro ps
  induction ps with
  | nil =>
    intro rest acc _
    simp [Hotmart.fetchSales]
  | cons p ps ih =>
    intro rest acc hgood
    have hp : optFalsy p.next_page_token = false := hgood p (List.mem_cons_self p ps)
    have hrest : ∀ q ∈ ps, optFalsy q.next_page_token = false :=
      fun q hq => hgood q (List.mem_cons_of_mem p hq)
    simp only [List.cons_append, List.map_cons, List.flatMap_cons]
    simp only [Hotmart.fetchSales, hp, Bool.false_eq_true, if_false]
    rw [ih rest (acc ++ p.items) hrest]
    simp

end PaginationLemmas

section PaginationClaims

/-- C2. The claim asserts both paginated fetchers stop at the first page
with an empty item list or a falsy cursor; but `Hotmart.get_sales_history`
only tests the cursor: on the script
`[{items: [], next_page_token: "t"}, {items: [5], next_page_token: null}]`
the first page has an empty item list, yet the loop continues and returns
`[5]`, not the empty concatenation of the pages up to the first empty
one. -/
theorem C2_counterexample :
    Hotmart.get_sales_history
        [(.ok ⟨[], some "t"⟩ : Except Unit (Hotmart.Page ℕ)), .ok ⟨[5], none⟩]
      = [5] ∧ ([5] : List ℕ) ≠ [] := by
  constructor
  · rfl
  · simp

/-- C2 (amended). `Tally.get_form_submissions` terminates at the first
page whose item list is empty or whose `after` cursor is null/absent
(Python-falsy) and returns the concatenation of the item lists of all
fetched pages in order; `Hotmart.get_sales_history` terminates only at
the first page whose `next_page_token` is null/absent/empty — an empty
item list alone does not stop it — and likewise returns the concatenation
of the item lists of all fetched pages in order. Termination at that page
is established against an arbitrary scripted suffix `rest` of further
responses: nothing after the first stopping page is consumed or
contributes items. -/
theorem C2_amended :
    (∀ {α : Type} (ps : List (Tally.PageResp α)) (plast : Tally.PageResp α)
        (rest : List (Except Unit (Tally.PageResp α))),
      (∀ p ∈ ps, Tally.stopPage p = false) → Tally.stopPage plast = true →
      Tally.get_form_submissions (ps.map Except.ok ++ Except.ok plast :: rest)
        = (ps ++ [plast]).flatMap (fun p => (Tally.extractPage p).1)) ∧
    (∀ {α : Type} (ps : List (Hotmart.Page α)) (plast : Hotmart.Page α)
        (rest : List (Except Unit (Hotmart.Page α))),
      (∀ p ∈ ps, optFalsy p.next_page_token = false) →
      optFalsy plast.next_page_token = true →
      Hotmart.get_sales_history (ps.map Except.ok ++ Except.ok plast :: rest)
        = (ps ++ [plast]).flatMap Hotmart.Page.items) := by
  constructor
  · intro α ps plast rest hgood hstop
    have := tally_fetch_script ps plast rest [] hgood hstop
    simpa [Tally.get_form_submissions] using this
  · intro α ps plast rest hgood hstop
    have := hotmart_fetch_script ps plast rest [] hgood hstop
    simpa [Hotmart.get_sales_history] using this

/-- Witness for C2 (amended): a Tally script whose second page stops the
loop by having an empty item list despite carrying a cursor, followed by
a further scripted page that is never fetched; and a Hotmart script
stopping at a token-less page, likewise followed by an unfetched page. -/
theorem C2_witness :
    (Tally.get_form_submissions
        (([Tally.PageResp.dict [1, 2] (some "a")] : List (Tally.PageResp ℕ)).map
            Except.ok
          ++ Except.ok (Tally.PageResp.dict [] (some "b"))
            :: [Except.ok (Tally.PageResp.dict [9] (some "c"))])
      = ([Tally.PageResp.dict [1, 2] (some "a")]
          ++ [Tally.PageResp.dict [] (some "b")]).flatMap
          (fun p => (Tally.extractPage p).1)) ∧
    (Hotmart.get_sales_history
        (([⟨[7], some "t"⟩] : List (Hotmart.Page ℕ)).map Except.ok
          ++ Except.ok (⟨[8, 9], none⟩ : Hotmart.Page ℕ)
            :: [Except.ok (⟨[99], some "u"⟩ : Hotmart.Page ℕ)])
      = (([⟨[7], some "t"⟩] : List (Hotmart.Page ℕ))
          ++ ([⟨[8, 9], none⟩] : List (Hotmart.Page ℕ))).flatMap
          Hotmart.Page.items) :=
  ⟨C2_amended.1 [Tally.PageResp.dict [1, 2] (some "a")]
      (Tally.PageResp.dict [] (some "b"))
      [Except.ok (Tally.PageResp.dict [9] (some "c"))]
      (by
        intro p hp
        simp at hp
        subst hp
        decide)
      (by decide),
    C2_amended.2 [⟨[7], some "t"⟩] ⟨[8, 9], none⟩
      [Except.ok (⟨[99], some "u"⟩ : Hotmart.Page ℕ)]
      (by
        intro p hp
        simp at hp
        subst hp
        decide)
      (by decide)⟩

/-- C5. When the resilient executor raises its typed error mid-pagination
after a prefix of non-terminal pages, both paginated fetchers swallow the
error and return exactly the items accumulated from the pages fetched
before the failure. -/
theorem C5_partial_results :
    (∀ {α : Type} (ps : List (Tally.PageResp α))
        (rest : List (Except Unit (Tally.PageResp α))),
      (∀ p ∈ ps, Tally.stopPage p = false) →
      Tally.get_form_submissions (ps.map Except.ok ++ Except.error () :: rest)
        = ps.flatMap (fun p => (Tally.extractPage p).1)) ∧
    (∀ {α : Type} (ps : List (Hotmart.Page α))
        (rest : List (Except Unit (Hotmart.Page α))),
      (∀ p ∈ ps, optFalsy p.next_page_token = false) →
      Hotmart.get_sales_history (ps.map Except.ok ++ Except.error () :: rest)
        = ps.flatMap Hotmart.Page.items) := by
  constructor
  · intro α ps rest hgood
    have := tally_fetch_error ps rest [] hgood
    simpa [Tally.get_form_submissions] using this
  · intro α ps rest hgood
    have := hotmart_fetch_error ps rest [] hgood
    simpa [Hotmart.get_sales_history] using this

/-- Witness for C5: one good page followed by a raised error returns that
page's items, for both clients. -/
theorem C5_witness :
    (Tally.get_form_submissions
        (([Tally.PageResp.dict [1, 2] (some "a")] : List (Tally.PageResp ℕ)).map
            Except.ok ++ Except.error () :: [])
      = ([Tally.PageResp.dict [1, 2] (some "a")] : List (Tally.PageResp ℕ)).flatMap
          (fun p => (Tally.extractPage p).1)) ∧
    (Hotmart.get_sales_history
        (([⟨[7], some "t"⟩] : List (Hotmart.Page ℕ)).map Except.ok
          ++ Except.error () :: [])
      = ([⟨[7], some "t"⟩] : List (Hotmart.Page ℕ)).flatMap Hotmart.Page.items) :=
  ⟨C5_partial_results.1 [Tally.PageResp.dict [1, 2] (some "a")] []
      (by
        intro p hp
        simp at hp
        subst hp
        decide),
    C5_partial_results.2 [⟨[7], some "t"⟩] []
      (by
        intro p hp
        simp at hp
        subst hp
        decide)⟩

end PaginationClaims

section BatchLemmas

/-- With chunk size 0 the slicing loop never runs in the model. -/
lemma chunkList_zero {α : Type} (l : List α) :
    DatabaseConnection.chunkList l 0 = [] := by
  cases l with
  | nil => simp [DatabaseConnection.chunkList]
  | cons a t => simp [DatabaseConnection.chunkList]

/-- The chunks concatenate back to the original list. -/
lemma chunkList_flatten {α : Type} (sz : Nat) (hsz : 0 < sz) :
    ∀ (n : Nat) (l : List α), l.length ≤ n →
      (DatabaseConnection.chunkList l sz).flatten = l := by
  intro n
  induction n with
  | zero =>
    intro l hl
    have : l = [] := List.eq_nil_of_length_eq_zero (by omega)
    subst this
    simp [DatabaseConnection.chunkList]
  | succ n ih =>
    intro l hl
    cases l with
    | nil => simp [DatabaseConnection.chunkList]
    | cons a t =>
      rw [DatabaseConnection.chunkList, dif_pos hsz, List.flatten_cons,
        ih ((a :: t).drop sz)
          (by
            simp only [List.length_drop, List.length_cons]
            simp only [List.length_cons] at hl
            omega)]
      exact List.take_append_drop sz (a :: t)

/-- Every chunk except possibly the last has length exactly `sz`. -/
lemma chunkList_dropLast_length {α : Type} (sz : Nat) (hsz : 0 < sz) :
    ∀ (n : Nat) (l : List α), l.length ≤ n →
      ∀ c ∈ (DatabaseConnection.chunkList l sz).dropLast, c.length = sz := by
  intro n
  induction n with
  | zero =>
    intro l hl
    have : l = [] := List.eq_nil_of_length_eq_zero (by omega)
    subst this
    intro c hc
    simp [DatabaseConnection.chunkList] at hc
  | succ n ih =>
    intro l hl
    cases l with
    | nil => intro c hc; simp [DatabaseConnection.chunkList] at hc
    | cons a t =>
      rw [DatabaseConnection.chunkList, dif_pos hsz]
      intro c hc
      by_cases hrest : DatabaseConnection.chunkList ((a :: t).drop sz) sz = []
      · rw [hrest] at hc
        simp at hc
      · rw [List.dropLast_cons_of_ne_nil hrest] at hc
        rcases List.mem_cons.mp hc with hc | hc
        · subst hc
          have hlen : sz < (a :: t).length := by
            by_contra hle
            push_neg at hle
            rw [List.drop_eq_nil_of_le hle] at hrest
            exact hrest (by simp [DatabaseConnection.chunkList])
          rw [List.length_take]
          omega
        · exact ih ((a :: t).drop sz)
            (by
              simp only [List.length_drop, List.length_cons]
              simp only [List.length_cons] at hl
              omega) c hc

/-- Every chunk has length at most `sz` and is nonempty. -/
lemma chunkList_mem_length {α : Type} (sz : Nat) (hsz : 0 < sz) :
    ∀ (n : Nat) (l : List α), l.length ≤ n →
      ∀ c ∈ DatabaseConnection.chunkList l sz, c.length ≤ sz ∧ c ≠ [] := by
  intro n
  induction n with
  | zero =>
    intro l hl
    have : l = [] := List.eq_nil_of_length_eq_zero (by omega)
    subst this
    intro c hc
    simp [DatabaseConnection.chunkList] at hc
  | succ n ih =>
    intro l hl
    cases l with
    | nil => intro c hc; simp [DatabaseConnection.chunkList] at hc
    | cons a t =>
      rw [DatabaseConnection.chunkList, dif_pos hsz]
      intro c hc
      rcases List.mem_cons.mp hc with hc | hc
      · subst hc
        constructor
        · rw [List.length_take]
          omega
        · obtain ⟨m, rfl⟩ := Nat.exists_eq_succ_of_ne_zero (Nat.pos_iff_ne_zero.mp hsz)
          simp [List.take_cons]
      · exact ih ((a :: t).drop sz)
          (by
            simp only [List.length_drop, List.length_cons]
            simp only [List.length_cons] at hl
            omega) c hc

/-- Fuel-indexed chunk-size computation (fuel bounds the number of
chunks; any fuel at least the list length is enough). -/
def chunkSizesAux : Nat → Nat → Nat → List Nat
  | 0, _, _ => []
  | fuel + 1, n, sz =>
    if 0 < sz ∧ 0 < n then min sz n :: chunkSizesAux fuel (n - sz) sz else []

/-- The chunk lengths are computed by `chunkSizesAux` from the input
length alone. -/
lemma chunkList_map_length {α : Type} (sz : Nat) (hsz : 0 < sz) :
    ∀ (fuel : Nat) (l : List α), l.length ≤ fuel →
      (DatabaseConnection.chunkList l sz).map List.length
        = chunkSizesAux fuel l.length sz := by
  intro fuel
  induction fuel with
  | zero =>
    intro l hl
    have : l = [] := List.eq_nil_of_length_eq_zero (by omega)
    subst this
    simp [DatabaseConnection.chunkList, chunkSizesAux]
  | succ n ih =>
    intro l hl
    cases l with
    | nil => simp [DatabaseConnection.chunkList, chunkSizesAux]
    | cons a t =>
      rw [DatabaseConnection.chunkList, dif_pos hsz]
      have hpos : 0 < sz ∧ 0 < (a :: t).length := ⟨hsz, by simp⟩
      rw [List.map_cons, chunkSizesAux, if_pos hpos,
        ih ((a :: t).drop sz)
          (by
            simp only [List.length_drop, List.length_cons]
            simp only [List.length_cons] at hl
            omega)]
      simp [List.length_take, List.length_drop]

/-- Success and failure counts of the batch loop always add up to the
total length of the processed chunks. -/
lemma batchLoop_success_failed {P : Type} (exec : Nat → List P → Except Unit Nat) :
    ∀ (cs : List (List P)) (i : Nat) (acc : DatabaseConnection.BatchAcc),
      (DatabaseConnection.batchLoop exec cs i acc).success
          + (DatabaseConnection.batchLoop exec cs i acc).failed
        = acc.success + acc.failed + (cs.map List.length).sum := by
  intro cs
  induction cs with
  | nil => intro i acc; simp [DatabaseConnection.batchLoop]
  | cons c cs ih =>
    intro i acc
    cases hexec : exec i c with
    | ok a =>
      simp only [DatabaseConnection.batchLoop, hexec]
      rw [ih]
      simp
      omega
    | error e =>
      simp only [DatabaseConnection.batchLoop, hexec]
      rw [ih]
      simp
      omega

end BatchLemmas

section BatchClaims

/-- C7. `execute_batch_update` partitions the ordered params list into
contiguous chunks of `batch_size` with only the last chunk possibly
shorter (the chunks concatenate back to the input, every chunk before the
last has length exactly `batch_size`, and every chunk is nonempty of
length at most `batch_size`); 2500 records with chunk size 1000 produce
exactly 3 batches of sizes 1000, 1000 and 500; and every returned outcome
satisfies `total_records = success + failed`. -/
theorem C7_batch_partition :
    (∀ {α : Type} (params : List α) (sz : Nat), 0 < sz →
      (DatabaseConnection.chunkList params sz).flatten = params ∧
      (∀ c ∈ (DatabaseConnection.chunkList params sz).dropLast, c.length = sz) ∧
      (∀ c ∈ DatabaseConnection.chunkList params sz, c.length ≤ sz ∧ c ≠ [])) ∧
    ((DatabaseConnection.chunkList (List.replicate 2500 (0 : ℕ)) 1000).map List.length
      = [1000, 1000, 500]) ∧
    (∀ {P : Type} (params : List P) (sz : Nat) (exec : Nat → List P → Except Unit Nat),
      0 < sz →
      ∃ out, DatabaseConnection.execute_batch_update params sz exec = .ok out ∧
        out.total_records = out.success + out.failed) := by
  refine ⟨?_, ?_, ?_⟩
  · intro α params sz hsz
    exact ⟨chunkList_flatten sz hsz params.length params le_rfl,
      chunkList_dropLast_length sz hsz params.length params le_rfl,
      chunkList_mem_length sz hsz params.length params le_rfl⟩
  · rw [chunkList_map_length 1000 (by norm_num) 2500 (List.replicate 2500 (0 : ℕ))
      (le_of_eq (List.length_replicate 2500 0)), List.length_replicate]
    decide
  · intro P params sz exec hsz
    by_cases hlen : params.length = 0
    · refine ⟨⟨0, 0, 0, 0, 0, []⟩, ?_, rfl⟩
      simp [DatabaseConnection.execute_batch_update, hlen]
    · have hbs : ¬ sz = 0 := by omega
      simp only [DatabaseConnection.execute_batch_update, if_neg hlen, if_neg hbs]
      refine ⟨_, rfl, ?_⟩
      have hsum := batchLoop_success_failed exec
        (DatabaseConnection.chunkList params sz) 0 ⟨0, 0, 0, 0, []⟩
      have hflat : (DatabaseConnection.chunkList params sz).flatten = params :=
        chunkList_flatten sz hsz params.length params le_rfl
      have hlen2 : ((DatabaseConnection.chunkList params sz).map List.length).sum
          = params.length := by
        rw [← List.length_flatten, hflat]
      show params.length
          = (DatabaseConnection.batchLoop exec
              (DatabaseConnection.chunkList params sz) 0 ⟨0, 0, 0, 0, []⟩).success
            + (DatabaseConnection.batchLoop exec
              (DatabaseConnection.chunkList params sz) 0 ⟨0, 0, 0, 0, []⟩).failed
      rw [hsum]
      simp [hlen2]

/-- Witness for C7: chunking `[10, 20, 30]` with size 2 and running a
batch where everything succeeds. -/
theorem C7_witness :
    ((DatabaseConnection.chunkList [10, 20, 30] 2).flatten = [10, 20, 30] ∧
      (∀ c ∈ (DatabaseConnection.chunkList [10, 20, 30] 2).dropLast, c.length = 2) ∧
      (∀ c ∈ DatabaseConnection.chunkList [10, 20, 30] 2, c.length ≤ 2 ∧ c ≠ [])) ∧
    (∃ out, DatabaseConnection.execute_batch_update [10, 20, 30] 2
        (fun _ _ => .ok 1) = .ok out ∧
      out.total_records = out.success + out.failed) :=
  ⟨C7_batch_partition.1 [10, 20, 30] 2 (by norm_num),
    C7_batch_partition.2.2 [10, 20, 30] 2 (fun _ _ => .ok 1) (by norm_num)⟩

/-- C6. With the params list split into three chunks of which exactly the
`j`-th fails with a database error and the other two succeed,
`execute_batch_update` returns (rather than raises) an outcome whose
`failed` equals the size of the failing chunk, whose `success` equals the
sum of the sizes of the two succeeding chunks, and whose `errors` list
has exactly one entry. -/
theorem C6_batch_partial_failure {P : Type} (p1 p2 p3 : List P) (bs : Nat)
    (exec : Nat → List P → Except Unit Nat) (j : Nat) (hj : j < 3)
    (hch : DatabaseConnection.chunkList (p1 ++ p2 ++ p3) bs = [p1, p2, p3])
    (hfail : exec j ([p1, p2, p3].getD j []) = .error ())
    (hok : ∀ i, i < 3 → i ≠ j → ∃ a, exec i ([p1, p2, p3].getD i []) = .ok a) :
    ∃ out, DatabaseConnection.execute_batch_update (p1 ++ p2 ++ p3) bs exec
        = .ok out ∧
      out.failed = ([p1, p2, p3].getD j []).length ∧
      out.success = (p1 ++ p2 ++ p3).length - out.failed ∧
      out.errors.length = 1 := by
  have hbs : ¬ bs = 0 := by
    intro h
    subst h
    rw [chunkList_zero] at hch
    simp at hch
  have hlen : ¬ (p1 ++ p2 ++ p3).length = 0 := by
    intro h
    rw [List.eq_nil_of_length_eq_zero h] at hch
    simp [DatabaseConnection.chunkList] at hch
  simp only [DatabaseConnection.execute_batch_update, if_neg hlen, if_neg hbs, hch]
  interval_cases j
  · obtain ⟨a1, h1⟩ := hok 1 (by omega) (by omega)
    obtain ⟨a2, h2⟩ := hok 2 (by omega) (by omega)
    simp only [List.getD_cons_zero, List.getD_cons_succ] at hfail h1 h2 ⊢
    refine ⟨_, rfl, ?_, ?_, ?_⟩ <;>
      simp [DatabaseConnection.batchLoop, hfail, h1, h2, List.length_append] <;>
        try omega
  · obtain ⟨a0, h0⟩ := hok 0 (by omega) (by omega)
    obtain ⟨a2, h2⟩ := hok 2 (by omega) (by omega)
    simp only [List.getD_cons_zero, List.getD_cons_succ] at hfail h0 h2 ⊢
    refine ⟨_, rfl, ?_, ?_, ?_⟩ <;>
      simp [DatabaseConnection.batchLoop, hfail, h0, h2, List.length_append] <;>
        try omega
  · obtain ⟨a0, h0⟩ := hok 0 (by omega) (by omega)
    obtain ⟨a1, h1⟩ := hok 1 (by omega) (by omega)
    simp only [List.getD_cons_zero, List.getD_cons_succ] at hfail h0 h1 ⊢
    refine ⟨_, rfl, ?_, ?_, ?_⟩ <;>
      simp [DatabaseConnection.batchLoop, hfail, h0, h1, List.length_append] <;>
        try omega

/-- Witness for C6: chunks `[[10], [20], [30]]` with the middle one
failing. -/
theorem C6_witness :
    ∃ out, DatabaseConnection.execute_batch_update [10, 20, 30] 1
        (fun i _ => if i = 1 then .error () else .ok 5) = .ok out ∧
      out.failed = ([[10], [20], [30]].getD 1 []).length ∧
      out.success = ([10, 20, 30] : List ℕ).length - out.failed ∧
      out.errors.length = 1 :=
  C6_batch_partial_failure [10] [20] [30] 1
    (fun i _ => if i = 1 then .error () else .ok 5) 1 (by norm_num)
    (by norm_num [DatabaseConnection.chunkList])
    (by norm_num)
    (by
      intro i hi hne
      exact ⟨5, by simp [hne]⟩)

/-- C10. In the situation of C6 (three chunks, exactly the `j`-th failing
with per-chunk rowcounts `aff i` for the succeeding chunks), the returned
`batches` counts only the two successful chunks and `total_affected` sums
only their rowcounts. -/
theorem C10_batches_successful_only {P : Type} (p1 p2 p3 : List P) (bs : Nat)
    (exec : Nat → List P → Except Unit Nat) (aff : Nat → Nat) (j : Nat) (hj : j < 3)
    (hch : DatabaseConnection.chunkList (p1 ++ p2 ++ p3) bs = [p1, p2, p3])
    (hfail : exec j ([p1, p2, p3].getD j []) = .error ())
    (hok : ∀ i, i < 3 → i ≠ j → exec i ([p1, p2, p3].getD i []) = .ok (aff i)) :
    ∃ out, DatabaseConnection.execute_batch_update (p1 ++ p2 ++ p3) bs exec
        = .ok out ∧
      out.batches = 2 ∧
      out.total_affected = (((List.range 3).filter (fun i => decide (i ≠ j))).map aff).sum := by
  have hbs : ¬ bs = 0 := by
    intro h
    subst h
    rw [chunkList_zero] at hch
    simp at hch
  have hlen : ¬ (p1 ++ p2 ++ p3).length = 0 := by
    intro h
    rw [List.eq_nil_of_length_eq_zero h] at hch
    simp [DatabaseConnection.chunkList] at hch
  simp only [DatabaseConnection.execute_batch_update, if_neg hlen, if_neg hbs, hch]
  interval_cases j
  · have h1 := hok 1 (by omega) (by omega)
    have h2 := hok 2 (by omega) (by omega)
    simp only [List.getD_cons_zero, List.getD_cons_succ] at hfail h1 h2 ⊢
    refine ⟨_, rfl, ?_, ?_⟩ <;>
      simp [DatabaseConnection.batchLoop, hfail, h1, h2, List.range_succ]
  · have h0 := hok 0 (by omega) (by omega)
    have h2 := hok 2 (by omega) (by omega)
    simp only [List.getD_cons_zero, List.getD_cons_succ] at hfail h0 h2 ⊢
    refine ⟨_, rfl, ?_, ?_⟩ <;>
      simp [DatabaseConnection.batchLoop, hfail, h0, h2, List.range_succ]
  · have h0 := hok 0 (by omega) (by omega)
    have h1 := hok 1 (by omega) (by omega)
    simp only [List.getD_cons_zero, List.getD_cons_succ] at hfail h0 h1 ⊢
    refine ⟨_, rfl, ?_, ?_⟩ <;>
      simp [DatabaseConnection.batchLoop, hfail, h0, h1, List.range_succ]

/-- Witness for C10: chunks `[[10], [20], [30]]`, middle chunk failing,
rowcount 7 for each succeeding chunk. -/
theorem C10_witness :
    ∃ out, DatabaseConnection.execute_batch_update [10, 20, 30] 1
        (fun i _ => if i = 1 then .error () else .ok 7) = .ok out ∧
      out.batches = 2 ∧
      out.total_affected
        = (((List.range 3).filter (fun i => decide (i ≠ 1))).map (fun _ => 7)).sum :=
  C10_batches_successful_only [10] [20] [30] 1
    (fun i _ => if i = 1 then .error () else .ok 7) (fun _ => 7) 1 (by norm_num)
    (by norm_num [DatabaseConnection.chunkList])
    (by norm_num)
    (by
      intro i hi hne
      simp [hne])

end BatchClaims

section RetryLemmas

/-- Tally retry loop on an all-429 oracle: the rate-limit error after
exactly the remaining attempts, with a 60 s sleep before each retry. -/
lemma tally_loop_429 (h : Tally.Headers) (times : Nat → ℚ) (mr : Nat) :
    ∀ (fuel attempt : Nat) (st : Tally.State), attempt + fuel = mr → 0 < fuel →
      (Tally.requestLoop (fun _ => .http 429 h) times mr fuel attempt st).result
          = .error .rateLimitExceeded ∧
      (Tally.requestLoop (fun _ => .http 429 h) times mr fuel attempt st).attempts
          = fuel ∧
      (Tally.requestLoop (fun _ => .http 429 h) times mr fuel attempt st).retrySleeps
          = List.replicate (fuel - 1) 60 := by
  intro fuel
  induction fuel with
  | zero => intro attempt st _ h0; omega
  | succ f ih =>
    intro attempt st hsum _
    rcases Nat.eq_zero_or_pos f with hf | hf
    · subst hf
      have hlast : ¬ attempt < mr - 1 := by omega
      refine ⟨?_, ?_, ?_⟩ <;> simp [Tally.requestLoop, hlast]
    · have hlt : attempt < mr - 1 := by omega
      refine ⟨?_, ?_, ?_⟩
      · simp only [Tally.requestLoop]
        simp [hlt]
        exact (ih (attempt + 1) _ (by omega) hf).1
      · simp only [Tally.requestLoop]
        simp [hlt]
        exact (ih (attempt + 1) _ (by omega) hf).2.1
      · simp only [Tally.requestLoop]
        simp [hlt]
        conv_rhs => rw [show f = (f - 1) + 1 by omega, List.replicate_succ]
        exact congrArg (List.cons 60) ((ih (attempt + 1) _ (by omega) hf).2.2)

/-- Tally retry loop on an oracle returning a fixed non-429 status in
400..599: `raise_for_status` raises an `HTTPError`, caught and retried
with exponential backoff `2^attempt`, failing with the generic wrapped
request error on the last attempt. -/
lemma tally_loop_retryable (h : Tally.Headers) (times : Nat → ℚ) (mr status : Nat)
    (hs4 : 400 ≤ status) (hs6 : status < 600) (hne : ¬ status = 429) :
    ∀ (fuel attempt : Nat) (st : Tally.State), attempt + fuel = mr → 0 < fuel →
      (Tally.requestLoop (fun _ => .http status h) times mr fuel attempt st).result
          = .error .requestError ∧
      (Tally.requestLoop (fun _ => .http status h) times mr fuel attempt st).attempts
          = fuel ∧
      (Tally.requestLoop (fun _ => .http status h) times mr fuel attempt st).retrySleeps
          = (List.range' attempt (fuel - 1)).map (fun i => 2 ^ i) := by
  intro fuel
  induction fuel with
  | zero => intro attempt st _ h0; omega
  | succ f ih =>
    intro attempt st hsum _
    rcases Nat.eq_zero_or_pos f with hf | hf
    · subst hf
      have hlast : attempt = mr - 1 := by omega
      refine ⟨?_, ?_, ?_⟩ <;> simp [Tally.requestLoop, hlast, hne, hs4, hs6]
    · have hnot : ¬ attempt = mr - 1 := by omega
      refine ⟨?_, ?_, ?_⟩
      · simp only [Tally.requestLoop]
        simp [hne, hs4, hs6, hnot]
        exact (ih (attempt + 1) _ (by omega) hf).1
      · simp only [Tally.requestLoop]
        simp [hne, hs4, hs6, hnot]
        exact (ih (attempt + 1) _ (by omega) hf).2.1
      · simp only [Tally.requestLoop]
        simp [hne, hs4, hs6, hnot]
        conv_rhs => rw [show f = (f - 1) + 1 by omega, List.range'_succ, List.map_cons]
        exact congrArg (List.cons (2 ^ attempt)) ((ih (attempt + 1) _ (by omega) hf).2.2)

/-- TMB retry loop on a fixed non-429 status in 400..599. -/
lemma tmb_loop_retryable (mr status : Nat)
    (hs4 : 400 ≤ status) (hs6 : status < 600) (hne : ¬ status = 429) :
    ∀ (fuel attempt : Nat), attempt + fuel = mr → 0 < fuel →
      (TMB.requestLoop (fun _ => .http status) mr fuel attempt).result
          = .error .requestError ∧
      (TMB.requestLoop (fun _ => .http status) mr fuel attempt).attempts = fuel ∧
      (TMB.requestLoop (fun _ => .http status) mr fuel attempt).retrySleeps
          = (List.range' attempt (fuel - 1)).map (fun i => 2 ^ i) := by
  intro fuel
  induction fuel with
  | zero => intro attempt _ h0; omega
  | succ f ih =>
    intro attempt hsum _
    rcases Nat.eq_zero_or_pos f with hf | hf
    · subst hf
      have hlast : attempt = mr - 1 := by omega
      refine ⟨?_, ?_, ?_⟩ <;> simp [TMB.requestLoop, hlast, hne, hs4, hs6]
    · have hnot : ¬ attempt = mr - 1 := by omega
      refine ⟨?_, ?_, ?_⟩
      · simp only [TMB.requestLoop]
        simp [hne, hs4, hs6, hnot]
        exact (ih (attempt + 1) (by omega) hf).1
      · simp only [TMB.requestLoop]
        simp [hne, hs4, hs6, hnot]
        exact (ih (attempt + 1) (by omega) hf).2.1
      · simp only [TMB.requestLoop]
        simp [hne, hs4, hs6, hnot]
        conv_rhs => rw [show f = (f - 1) + 1 by omega, List.range'_succ, List.map_cons]
        exact congrArg (List.cons (2 ^ attempt)) ((ih (attempt + 1) (by omega) hf).2.2)

/-- Hotmart retry loop on an all-429 oracle with a fixed header set whose
update always yields the same `rate_reset or 60` wait `w`. -/
lemma hotmart_loop_429 (hd : Hotmart.Headers) (mr : Nat) (w : Int)
    (hw : ∀ rst : Hotmart.RateState,
      Hotmart.pyOr60 ((Hotmart.update_rate_limit rst hd).rate_reset) = w) :
    ∀ (fuel attempt : Nat) (st : Hotmart.State), attempt + fuel = mr → 0 < fuel →
      (Hotmart.requestLoop (fun _ => .http 429 hd) mr fuel attempt st).result
          = .error .rateLimitExceeded ∧
      (Hotmart.requestLoop (fun _ => .http 429 hd) mr fuel attempt st).attempts
          = fuel ∧
      (Hotmart.requestLoop (fun _ => .http 429 hd) mr fuel attempt st).retrySleeps
          = List.replicate (fuel - 1) w := by
  intro fuel
  induction fuel with
  | zero => intro attempt st _ h0; omega
  | succ f ih =>
    intro attempt st hsum _
    rcases Nat.eq_zero_or_pos f with hf | hf
    · subst hf
      have hlast : ¬ attempt < mr - 1 := by omega
      refine ⟨?_, ?_, ?_⟩ <;> simp [Hotmart.requestLoop, hlast]
    · have hlt : attempt < mr - 1 := by omega
      refine ⟨?_, ?_, ?_⟩
      · simp only [Hotmart.requestLoop]
        simp [hlt]
        exact (ih (attempt + 1) _ (by omega) hf).1
      · simp only [Hotmart.requestLoop]
        simp [hlt]
        exact (ih (attempt + 1) _ (by omega) hf).2.1
      · simp only [Hotmart.requestLoop]
        simp [hlt]
        conv_rhs => rw [show f = (f - 1) + 1 by omega, List.replicate_succ]
        rw [hw st.rate]
        exact congrArg (List.cons w) ((ih (attempt + 1) _ (by omega) hf).2.2)

/-- Hotmart retry loop on a fixed non-429 status in 400..599. -/
lemma hotmart_loop_retryable (hd : Hotmart.Headers) (mr status : Nat)
    (hs4 : 400 ≤ status) (hs6 : status < 600) (hne : ¬ status = 429) :
    ∀ (fuel attempt : Nat) (st : Hotmart.State), attempt + fuel = mr → 0 < fuel →
      (Hotmart.requestLoop (fun _ => .http status hd) mr fuel attempt st).result
          = .error .requestError ∧
      (Hotmart.requestLoop (fun _ => .http status hd) mr fuel attempt st).attempts
          = fuel ∧
      (Hotmart.requestLoop (fun _ => .http status hd) mr fuel attempt st).retrySleeps
          = (List.range' attempt (fuel - 1)).map (fun i => (2 : Int) ^ i) := by
  intro fuel
  induction fuel with
  | zero => intro attempt st _ h0; omega
  | succ f ih =>
    intro attempt st hsum _
    rcases Nat.eq_zero_or_pos f with hf | hf
    · subst hf
      have hlast : attempt = mr - 1 := by omega
      refine ⟨?_, ?_, ?_⟩ <;> simp [Hotmart.requestLoop, hlast, hne, hs4, hs6]
    · have hnot : ¬ attempt = mr - 1 := by omega
      refine ⟨?_, ?_, ?_⟩
      · simp only [Hotmart.requestLoop]
        simp [hne, hs4, hs6, hnot]
        exact (ih (attempt + 1) _ (by omega) hf).1
      · simp only [Hotmart.requestLoop]
        simp [hne, hs4, hs6, hnot]
        exact (ih (attempt + 1) _ (by omega) hf).2.1
      · simp only [Hotmart.requestLoop]
        simp [hne, hs4, hs6, hnot]
        conv_rhs => rw [show f = (f - 1) + 1 by omega, List.range'_succ, List.map_cons]
        exact congrArg (List.cons ((2 : Int) ^ attempt)) ((ih (attempt + 1) _ (by omega) hf).2.2)

/-- `_ensure_authenticated` with a successful auth oracle never raises. -/
lemma hotmart_ensure_ok (resp : Hotmart.AuthResp) (now : Int) (st : Hotmart.State) :
    ∃ st1 c, Hotmart.ensure_authenticated (.ok resp) now st = .ok (st1, c) := by
  by_cases hcond : (optFalsy st.access_token
      || (match st.token_expiry with
          | some e => decide (e ≤ now)
          | none => false)) = true
  · refine ⟨⟨some resp.access_token, some (now + resp.expires_in.getD 3600),
        Hotmart.update_rate_limit st.rate resp.headers⟩, 1, ?_⟩
    simp [Hotmart.ensure_authenticated, Hotmart.authenticate, Except.map, hcond]
  · exact ⟨st, 0, by simp [Hotmart.ensure_authenticated, hcond]⟩

end RetryLemmas

section RetryClaims

/-- C1. The claim asserts a non-2xx non-429 response makes the call fail
immediately with no further network attempt and no backoff sleep; but
`raise_for_status` raises `requests.exceptions.HTTPError`, a subclass of
`RequestException`, which the retry handler catches: on two consecutive
404 responses with `max_retries = 2` the TMB client makes 2 network
attempts with a `2^0 = 1` second backoff sleep between them. -/
theorem C1_counterexample :
    (TMB.make_request (fun _ => .http 404) 2).attempts = 2 ∧
    (TMB.make_request (fun _ => .http 404) 2).retrySleeps = [1] ∧
    ¬ ((TMB.make_request (fun _ => .http 404) 2).attempts = 1 ∧
        (TMB.make_request (fun _ => .http 404) 2).retrySleeps = []) := by
  refine ⟨?_, ?_, ?_⟩ <;> decide

/-- C1 (amended). In all three clients a response with a non-2xx non-429
status in 400..599 is treated like any other request error: with attempts
remaining the client sleeps `2^attempt` seconds and retries, and the
typed error (`TallyAPIError`/`TMBAPIError`/`HotmartAPIError` wrapping the
`HTTPError`) is raised only after `max_retries` network attempts. -/
theorem C1_amended :
    (∀ (mr status : Nat) (h : Tally.Headers) (times : Nat → ℚ) (st : Tally.State),
      1 ≤ mr → 400 ≤ status → status < 600 → status ≠ 429 →
      (Tally.make_request (fun _ => .http status h) times mr st).result
          = .error .requestError ∧
      (Tally.make_request (fun _ => .http status h) times mr st).attempts = mr ∧
      (Tally.make_request (fun _ => .http status h) times mr st).retrySleeps
          = (List.range (mr - 1)).map (fun i => 2 ^ i)) ∧
    (∀ (mr status : Nat), 1 ≤ mr → 400 ≤ status → status < 600 → status ≠ 429 →
      (TMB.make_request (fun _ => .http status) mr).result = .error .requestError ∧
      (TMB.make_request (fun _ => .http status) mr).attempts = mr ∧
      (TMB.make_request (fun _ => .http status) mr).retrySleeps
          = (List.range (mr - 1)).map (fun i => 2 ^ i)) ∧
    (∀ (mr status : Nat) (hd : Hotmart.Headers) (resp : Hotmart.AuthResp)
        (now : Int) (st : Hotmart.State),
      1 ≤ mr → 400 ≤ status → status < 600 → status ≠ 429 →
      (Hotmart.make_request (.ok resp) now (fun _ => .http status hd) mr st).result
          = .error .requestError ∧
      (Hotmart.make_request (.ok resp) now (fun _ => .http status hd) mr st).attempts
          = mr ∧
      (Hotmart.make_request (.ok resp) now (fun _ => .http status hd) mr st).retrySleeps
          = (List.range (mr - 1)).map (fun i => (2 : Int) ^ i)) := by
  refine ⟨?_, ?_, ?_⟩
  · intro mr status h times st hmr hs4 hs6 hne
    have hl := tally_loop_retryable h times mr status hs4 hs6 hne mr 0 st
      (by omega) (by omega)
    simpa [Tally.make_request, List.range_eq_range'] using hl
  · intro mr status hmr hs4 hs6 hne
    have hl := tmb_loop_retryable mr status hs4 hs6 hne mr 0 (by omega) (by omega)
    simpa [TMB.make_request, List.range_eq_range'] using hl
  · intro mr status hd resp now st hmr hs4 hs6 hne
    obtain ⟨st1, c, he⟩ := hotmart_ensure_ok resp now st
    have hl := hotmart_loop_retryable hd mr status hs4 hs6 hne mr 0 st1
      (by omega) (by omega)
    refine ⟨?_, ?_, ?_⟩ <;>
      simp [Hotmart.make_request, he, hl.1, hl.2.1, hl.2.2, List.range_eq_range']

/-- Witness for C1 (amended): two 404 responses with `max_retries = 2` in
each client. -/
theorem C1_witness :
    ((Tally.make_request (fun _ => .http 404 ⟨none, none⟩) (fun _ => 0) 2
        Tally.initState).result = .error .requestError ∧
      (Tally.make_request (fun _ => .http 404 ⟨none, none⟩) (fun _ => 0) 2
        Tally.initState).attempts = 2 ∧
      (Tally.make_request (fun _ => .http 404 ⟨none, none⟩) (fun _ => 0) 2
        Tally.initState).retrySleeps = (List.range 1).map (fun i => 2 ^ i)) ∧
    ((TMB.make_request (fun _ => .http 404) 2).result = .error .requestError ∧
      (TMB.make_request (fun _ => .http 404) 2).attempts = 2 ∧
      (TMB.make_request (fun _ => .http 404) 2).retrySleeps
        = (List.range 1).map (fun i => 2 ^ i)) ∧
    ((Hotmart.make_request (.ok ⟨"t", none, ⟨none, none, none⟩⟩) 0
        (fun _ => .http 404 ⟨none, none, none⟩) 2
        ⟨none, none, ⟨500, 500, none⟩⟩).result = .error .requestError ∧
      (Hotmart.make_request (.ok ⟨"t", none, ⟨none, none, none⟩⟩) 0
        (fun _ => .http 404 ⟨none, none, none⟩) 2
        ⟨none, none, ⟨500, 500, none⟩⟩).attempts = 2 ∧
      (Hotmart.make_request (.ok ⟨"t", none, ⟨none, none, none⟩⟩) 0
        (fun _ => .http 404 ⟨none, none, none⟩) 2
        ⟨none, none, ⟨500, 500, none⟩⟩).retrySleeps
        = (List.range 1).map (fun i => (2 : Int) ^ i)) :=
  ⟨C1_amended.1 2 404 ⟨none, none⟩ (fun _ => 0) Tally.initState
      (by norm_num) (by norm_num) (by norm_num) (by norm_num),
    C1_amended.2.1 2 404 (by norm_num) (by norm_num) (by norm_num) (by norm_num),
    C1_amended.2.2 2 404 ⟨none, none, none⟩ ⟨"t", none, ⟨none, none, none⟩⟩ 0
      ⟨none, none, ⟨500, 500, none⟩⟩
      (by norm_num) (by norm_num) (by norm_num) (by norm_num)⟩

/-- C3. When every one of the first `max_retries` attempts returns HTTP
429, `make_request` raises the rate-limit-exceeded typed error and the
number of network attempts equals exactly `max_retries`, with a sleep
between attempts that are not the last: a fixed 60 s for the Tally
client, and `self.rate_reset or 60` for the Hotmart client — 60 when the
reset header is absent, the server-provided reset duration `r` when the
`RateLimit-Reset` header carries the digit string of a positive `r`. -/
theorem C3_rate_limited_retries :
    (∀ (mr : Nat) (h : Tally.Headers) (times : Nat → ℚ) (st : Tally.State), 1 ≤ mr →
      (Tally.make_request (fun _ => .http 429 h) times mr st).result
          = .error .rateLimitExceeded ∧
      (Tally.make_request (fun _ => .http 429 h) times mr st).attempts = mr ∧
      (Tally.make_request (fun _ => .http 429 h) times mr st).retrySleeps
          = List.replicate (mr - 1) 60) ∧
    (∀ (mr : Nat) (resp : Hotmart.AuthResp) (now : Int) (st : Hotmart.State), 1 ≤ mr →
      (Hotmart.make_request (.ok resp) now (fun _ => .http 429 ⟨none, none, none⟩)
          mr st).result = .error .rateLimitExceeded ∧
      (Hotmart.make_request (.ok resp) now (fun _ => .http 429 ⟨none, none, none⟩)
          mr st).attempts = mr ∧
      (Hotmart.make_request (.ok resp) now (fun _ => .http 429 ⟨none, none, none⟩)
          mr st).retrySleeps = List.replicate (mr - 1) (60 : Int)) ∧
    (∀ (mr : Nat) (resp : Hotmart.AuthResp) (now : Int) (st : Hotmart.State)
        (s : String) (r : Nat), 1 ≤ mr →
      isDigits s = true → digitsToNat s.data = r → 0 < r →
      (Hotmart.make_request (.ok resp) now (fun _ => .http 429 ⟨none, none, some s⟩)
          mr st).result = .error .rateLimitExceeded ∧
      (Hotmart.make_request (.ok resp) now (fun _ => .http 429 ⟨none, none, some s⟩)
          mr st).attempts = mr ∧
      (Hotmart.make_request (.ok resp) now (fun _ => .http 429 ⟨none, none, some s⟩)
          mr st).retrySleeps = List.replicate (mr - 1) (r : Int)) := by
  refine ⟨?_, ?_, ?_⟩
  · intro mr h times st hmr
    have hl := tally_loop_429 h times mr mr 0 st (by omega) (by omega)
    simpa [Tally.make_request] using hl
  · intro mr resp now st hmr
    obtain ⟨st1, c, he⟩ := hotmart_ensure_ok resp now st
    have hw : ∀ rst : Hotmart.RateState,
        Hotmart.pyOr60 ((Hotmart.update_rate_limit rst
          ⟨none, none, none⟩).rate_reset) = (60 : Int) := fun _ => rfl
    have hl := hotmart_loop_429 ⟨none, none, none⟩ mr 60 hw mr 0 st1
      (by omega) (by omega)
    refine ⟨?_, ?_, ?_⟩ <;>
      simp [Hotmart.make_request, he, hl.1, hl.2.1, hl.2.2]
  · intro mr resp now st s r hmr his hval hr
    obtain ⟨st1, c, he⟩ := hotmart_ensure_ok resp now st
    have hr0 : ¬ ((r : Nat) : Int) = 0 := by omega
    have hw : ∀ rst : Hotmart.RateState,
        Hotmart.pyOr60 ((Hotmart.update_rate_limit rst
          ⟨none, none, some s⟩).rate_reset) = (r : Int) := by
      intro rst
      simp [Hotmart.update_rate_limit, Hotmart.pyOr60, his, hval, hr0]
    have hl := hotmart_loop_429 ⟨none, none, some s⟩ mr (r : Int) hw mr 0 st1
      (by omega) (by omega)
    refine ⟨?_, ?_, ?_⟩ <;>
      simp [Hotmart.make_request, he, hl.1, hl.2.1, hl.2.2]

/-- Witness for C3: three 429 responses with `max_retries = 3`, with no
reset header for Tally and the first Hotmart run, and digit reset header
`"17"` for the last. -/
theorem C3_witness :
    ((Tally.make_request (fun _ => .http 429 ⟨none, none⟩) (fun _ => 0) 3
        Tally.initState).result = .error .rateLimitExceeded ∧
      (Tally.make_request (fun _ => .http 429 ⟨none, none⟩) (fun _ => 0) 3
        Tally.initState).attempts = 3 ∧
      (Tally.make_request (fun _ => .http 429 ⟨none, none⟩) (fun _ => 0) 3
        Tally.initState).retrySleeps = List.replicate 2 60) ∧
    ((Hotmart.make_request (.ok ⟨"t", none, ⟨none, none, none⟩⟩) 0
        (fun _ => .http 429 ⟨none, none, none⟩) 3
        ⟨none, none, ⟨500, 500, none⟩⟩).result = .error .rateLimitExceeded ∧
      (Hotmart.make_request (.ok ⟨"t", none, ⟨none, none, none⟩⟩) 0
        (fun _ => .http 429 ⟨none, none, none⟩) 3
        ⟨none, none, ⟨500, 500, none⟩⟩).attempts = 3 ∧
      (Hotmart.make_request (.ok ⟨"t", none, ⟨none, none, none⟩⟩) 0
        (fun _ => .http 429 ⟨none, none, none⟩) 3
        ⟨none, none, ⟨500, 500, none⟩⟩).retrySleeps = List.replicate 2 (60 : Int)) ∧
    ((Hotmart.make_request (.ok ⟨"t", none, ⟨none, none, none⟩⟩) 0
        (fun _ => .http 429 ⟨none, none, some "17"⟩) 3
        ⟨none, none, ⟨500, 500, none⟩⟩).result = .error .rateLimitExceeded ∧
      (Hotmart.make_request (.ok ⟨"t", none, ⟨none, none, none⟩⟩) 0
        (fun _ => .http 429 ⟨none, none, some "17"⟩) 3
        ⟨none, none, ⟨500, 500, none⟩⟩).attempts = 3 ∧
      (Hotmart.make_request (.ok ⟨"t", none, ⟨none, none, none⟩⟩) 0
        (fun _ => .http 429 ⟨none, none, some "17"⟩) 3
        ⟨none, none, ⟨500, 500, none⟩⟩).retrySleeps = List.replicate 2 (17 : Int)) :=
  ⟨C3_rate_limited_retries.1 3 ⟨none, none⟩ (fun _ => 0) Tally.initState (by norm_num),
    C3_rate_limited_retries.2.1 3 ⟨"t", none, ⟨none, none, none⟩⟩ 0
      ⟨none, none, ⟨500, 500, none⟩⟩ (by norm_num),
    C3_rate_limited_retries.2.2 3 ⟨"t", none, ⟨none, none, none⟩⟩ 0
      ⟨none, none, ⟨500, 500, none⟩⟩ "17" 17 (by norm_num) (by decide) (by decide)
      (by norm_num)⟩

end RetryClaims
